import Mathlib

/-!
Verification of the price-comparison application's pricing pipeline.

Definitions in the first part embed the repository's TypeScript source
(`src/functions/update-prices/index.ts`, `src/functions/ai-search/index.ts`,
the `scrape-prices` handler bundled in `src/src/App.tsx`, and the page
helpers in `src/src/pages/*.tsx`, `src/unnamed/part_000`,
`src/unnamed/part_001`).  Prices are modelled as rationals, JavaScript
arrays as lists, thrown exceptions as `Except`, and `null`/absent values
as `Option`.

The repository's alert matcher, change detector and refresh orchestrator
exist in the source only as demo stubs whose comments describe the real
implementation; those components are modelled from the specification and
are marked `Modelled from the spec:` in their doc comments.
-/

/-- Availability of a product at a store, as in the spec's PriceQuote
enum \x7bin_stock, out_of_stock, unknown\x7d. -/
inductive Availability : Type
| in_stock
| out_of_stock
| unknown
deriving DecidableEq, Repr

/-- A single price observation, as in the spec's data model: PriceQuote =
(productId, storeId, price, availability, sourceUrl, observedAt). -/
structure PriceQuote : Type where
  productId : String
  storeId : String
  price : ℚ
  availability : Availability
  sourceUrl : String
  observedAt : ℕ
deriving DecidableEq, Repr

/-- A user's standing price alert, as in the spec's data model:
PriceAlert = (id, userId, productId, targetPrice, isActive, createdAt). -/
structure PriceAlert : Type where
  id : String
  userId : String
  productId : String
  targetPrice : ℚ
  isActive : Bool
  createdAt : ℕ
deriving DecidableEq, Repr

/-- A notification intent, as in the spec's data model: NotificationIntent =
(alertId, userId, productId, storeId, triggeringPrice, targetPrice, savings). -/
structure NotificationIntent : Type where
  alertId : String
  userId : String
  productId : String
  storeId : String
  triggeringPrice : ℚ
  targetPrice : ℚ
  savings : ℚ
deriving DecidableEq, Repr

/-- Classification of a price change, as in the spec's ChangeEvent enum
\x7bnew, increase, decrease, unchanged\x7d. -/
inductive Classification : Type
| new
| increase
| decrease
| unchanged
deriving DecidableEq, Repr

/-- A classified price delta, as in the spec's data model: ChangeEvent =
(productId, storeId, oldPrice | null, newPrice, delta, deltaPercent,
classification).  When no prior snapshot exists the spec leaves `delta` and
`deltaPercent` unspecified; the model sets them to 0. -/
structure ChangeEvent : Type where
  productId : String
  storeId : String
  oldPrice : Option ℚ
  newPrice : ℚ
  delta : ℚ
  deltaPercent : ℚ
  classification : Classification
deriving DecidableEq, Repr

/-- One row of `PriceUpdate` as declared in
`src/functions/update-prices/index.ts` lines 3-10. -/
structure PriceUpdate : Type where
  productId : String
  storeId : String
  oldPrice : ℚ
  newPrice : ℚ
  change : ℚ
  changePercent : ℚ
deriving DecidableEq, Repr

/-- One mock notification record as pushed by `checkPriceAlerts` in
`src/functions/update-prices/index.ts` lines 142-149. -/
structure MockNotification : Type where
  productId : String
  storeId : String
  alertType : String
  oldPrice : ℚ
  newPrice : ℚ
  savings : ℚ
deriving DecidableEq, Repr

/-- Embeds `checkPriceAlerts` (`src/functions/update-prices/index.ts` lines
131-154): for each update whose `change` is below -10 it pushes one
notification record with `savings = Math.abs(update.change)`. -/
def checkPriceAlerts (updates : List PriceUpdate) : List MockNotification :=
  updates.filterMap (fun u =>
    if u.change < -10 then
      some ⟨u.productId, u.storeId, "price_drop", u.oldPrice, u.newPrice, |u.change|⟩
    else none)

/-- The parsed `productIds` field of the request body of the
`update-prices` handler.  `missing` covers an absent/null field, `nonArray`
a present non-array value together with its JavaScript truthiness, `arr` an
array of product id strings. -/
inductive ProductIdsField : Type
| missing
| nonArray (truthy : Bool)
| arr (ids : List String)
deriving DecidableEq, Repr

/-- Response of the `update-prices` handler: either a fatal JSON error with
an HTTP status, or the success summary of
`src/functions/update-prices/index.ts` lines 69-80. -/
inductive UpdateResponse : Type
| fatal (status : ℕ) (msg : String)
| success (updatedProducts priceUpdates notifications : ℕ)
    (updates : List PriceUpdate)
deriving DecidableEq, Repr

/-- Whether an `update-prices` response is a fatal error. -/
def UpdateResponse.isFatal : UpdateResponse → Bool
| .fatal _ _ => true
| .success _ _ _ _ => false

/-- Embeds the per-product loop of the `update-prices` handler
(`src/functions/update-prices/index.ts` lines 47-62): each product's
`updateProductPrices` call (abstracted as `step`, which may throw) is run
in its own try/catch; on success its updates are appended and fed through
`checkPriceAlerts`, on error the product is skipped and the loop continues. -/
def runProducts (step : String → Except Unit (List PriceUpdate))
    (ids : List String) : List PriceUpdate × List MockNotification :=
  ids.foldl (fun acc pid =>
    match step pid with
    | .ok pu => (acc.1 ++ pu, acc.2 ++ checkPriceAlerts pu)
    | .error _ => acc) ([], [])

/-- Embeds the `update-prices` request handler
(`src/functions/update-prices/index.ts` lines 35-80).  The guard
`!productIds || !Array.isArray(productIds)` rejects a missing field (falsy)
and any non-array value (falsy values fail the first test, truthy
non-arrays fail `Array.isArray`); every array — including the empty
array, which is truthy in JavaScript — passes and yields the success
summary with `updatedProducts = productIds.length`. -/
def updatePricesHandler (step : String → Except Unit (List PriceUpdate)) :
    ProductIdsField → UpdateResponse
| .missing => .fatal 400 "Product IDs array is required"
| .nonArray _ => .fatal 400 "Product IDs array is required"
| .arr ids =>
    let r := runProducts step ids
    .success ids.length r.1.length r.2.length r.1

/-- One scraped price row as declared in the `scrape-prices` handler
bundled in `src/src/App.tsx` (interface `PriceResult`). -/
structure PriceResult : Type where
  store : String
  price : ℚ
  title : String
  url : String
  availability : String
  shipping : Option ℚ
deriving DecidableEq, Repr

/-- Embeds the per-store loop of the `scrape-prices` handler
(`src/src/App.tsx` bundle, lines 131-142): each store's `scrapeStore` call
(abstracted as `fetch`, which may throw) runs in its own try/catch; on
error the store contributes nothing and the loop continues with the other
stores. -/
def collectStoreResults (fetch : String → Except Unit (List PriceResult))
    (stores : List String) : List PriceResult :=
  stores.foldl (fun acc s =>
    match fetch s with
    | .ok rs => acc ++ rs
    | .error _ => acc) []

/-- One price row as loaded by the pages (interface `PriceData` in
`src/src/pages/HomePage.tsx`, `src/src/pages/SearchResultsPage.tsx` and
`src/unnamed/part_000`). -/
structure PriceData : Type where
  product_id : String
  store_id : String
  price : ℚ
  availability : String
  product_url : String
  store_name : String
  store_logo_url : String
deriving DecidableEq, Repr

/-- Embeds `getLowestPrice` (`src/src/pages/HomePage.tsx` lines 92-95,
`src/src/pages/SearchResultsPage.tsx` lines 212-215, `src/unnamed/part_000`
lines 140-143): `null` for an empty list, otherwise
`Math.min(...prices.map(p => p.price))`. -/
def getLowestPrice (prices : List PriceData) : Option ℚ :=
  match prices.map (fun p => p.price) with
  | [] => none
  | x :: xs => some (xs.foldl min x)

/-- Helper for `strIncludes`: does `pat` occur as a prefix of `s`
(character lists)? -/
def hasPrefixCh : List Char → List Char → Bool
| [], _ => true
| _ :: _, [] => false
| p :: ps, c :: cs => p = c && hasPrefixCh ps cs

/-- Helper for `strIncludes`: does `pat` occur as a contiguous substring of
`s` (character lists)? -/
def hasSubstrCh (pat : List Char) : List Char → Bool
| [] => pat.isEmpty
| c :: cs => hasPrefixCh pat (c :: cs) || hasSubstrCh pat cs

/-- JavaScript `s.includes(pat)`: `pat` occurs as a contiguous substring of
`s`. -/
def strIncludes (s pat : String) : Bool :=
  hasSubstrCh pat.toList s.toList

/-- The product-type keyword list of `extractProductType`
(`src/functions/ai-search/index.ts` lines 107-115). -/
def productTypes : List String :=
  ["phone", "iphone", "smartphone", "mobile",
   "laptop", "macbook", "computer", "pc",
   "headphones", "earbuds", "airpods",
   "tablet", "ipad",
   "watch", "smartwatch",
   "tv", "television", "monitor",
   "camera", "gaming", "console"]

/-- Embeds `extractProductType` (`src/functions/ai-search/index.ts` lines
106-124): the first keyword of `productTypes` contained in the query, or
"general" when none occurs. -/
def extractProductType (query : String) : String :=
  (productTypes.find? (fun t => strIncludes query t)).getD "general"

/-- The brand list of `extractBrand` (`src/functions/ai-search/index.ts`
line 127). -/
def brandNames : List String :=
  ["apple", "samsung", "google", "microsoft", "sony",
   "lg", "dell", "hp", "lenovo", "asus"]

/-- Embeds `extractBrand` (`src/functions/ai-search/index.ts` lines
126-136): the first brand contained in the query, or `null`. -/
def extractBrand (query : String) : Option String :=
  brandNames.find? (fun b => strIncludes query b)

/-- Result shape of `extractPriceRange`: the source returns
`\x7bmin, max\x7d` (both groups captured) or `\x7bmax\x7d` (single group). -/
structure PriceRange : Type where
  lo : Option ℕ
  hi : ℕ
deriving DecidableEq, Repr

/-- Helper for the price patterns: consume an optional dollar sign then a
maximal nonempty digit run, returning its value and the rest, as the regex
fragment `\$?(\d+)` does. -/
def matchMoneyNum (s : List Char) : Option (ℕ × List Char) :=
  let s1 := match s with
    | '$' :: rest => rest
    | _ => s
  let ds := s1.takeWhile Char.isDigit
  let rest := s1.dropWhile Char.isDigit
  if ds.isEmpty then none
  else some (ds.foldl (fun n c => n * 10 + (c.toNat - 48)) 0, rest)

/-- Helper: consume the literal `lit` at the head of `s`. -/
def matchLit : List Char → List Char → Option (List Char)
| [], s => some s
| _ :: _, [] => none
| l :: ls, c :: cs => if l = c then matchLit ls cs else none

/-- Pattern `kw\$?(\d+)` anchored at the head of `s`, as in the regexes
`/under \$?(\d+)/`, `/below \$?(\d+)/`, `/less than \$?(\d+)/`. -/
def matchKeywordNum (kw : List Char) (s : List Char) : Option ℕ :=
  (matchLit kw s).bind (fun r => (matchMoneyNum r).map Prod.fst)

/-- Pattern `\$?(\d+)\s*-\s*\$?(\d+)` anchored at the head of `s`. -/
def matchDashRange (s : List Char) : Option (ℕ × ℕ) :=
  (matchMoneyNum s).bind (fun ar =>
    match ar.2.dropWhile Char.isWhitespace with
    | '-' :: r2 =>
        ((matchMoneyNum (r2.dropWhile Char.isWhitespace)).map
          (fun br => (ar.1, br.1)))
    | _ => none)

/-- Pattern `between \$?(\d+) and \$?(\d+)` anchored at the head of `s`. -/
def matchBetweenRange (s : List Char) : Option (ℕ × ℕ) :=
  (matchLit "between ".toList s).bind (fun r1 =>
    (matchMoneyNum r1).bind (fun ar =>
      (matchLit " and ".toList ar.2).bind (fun r2 =>
        (matchMoneyNum r2).map (fun br => (ar.1, br.1)))))

/-- Unanchored regex search: try the anchored matcher `m` at every
position of `s` from the left, as `query.match(pattern)` does. -/
def scanFor {α : Type} (m : List Char → Option α) : List Char → Option α
| [] => m []
| c :: cs =>
    match m (c :: cs) with
    | some v => some v
    | none => scanFor m cs

/-- Embeds `extractPriceRange` (`src/functions/ai-search/index.ts` lines
138-159): the five case-insensitive price patterns tried in source order
on the (already lowercased) query; single-group patterns yield only an
upper bound, two-group patterns yield both bounds. -/
def extractPriceRange (query : String) : Option PriceRange :=
  let s := query.toList
  ((scanFor (matchKeywordNum "under ".toList) s).map (fun n => ⟨none, n⟩)) <|>
  ((scanFor (matchKeywordNum "below ".toList) s).map (fun n => ⟨none, n⟩)) <|>
  ((scanFor (matchKeywordNum "less than ".toList) s).map
    (fun n => (⟨none, n⟩ : PriceRange))) <|>
  ((scanFor matchDashRange s).map (fun ab => ⟨some ab.1, ab.2⟩)) <|>
  ((scanFor matchBetweenRange s).map (fun ab => ⟨some ab.1, ab.2⟩))

/-- The feature keyword list of `extractFeatures`
(`src/functions/ai-search/index.ts` lines 163-167). -/
def featureKeywords : List String :=
  ["wireless", "bluetooth", "noise cancelling", "waterproof",
   "fast charging", "long battery", "high resolution", "4k",
   "gaming", "professional", "portable", "lightweight"]

/-- Embeds `extractFeatures` (`src/functions/ai-search/index.ts` lines
161-176): every feature keyword contained in the query, in list order. -/
def extractFeatures (query : String) : List String :=
  featureKeywords.filter (fun f => strIncludes query f)

/-- The category keyword table of `extractCategory`
(`src/functions/ai-search/index.ts` lines 179-184), in object insertion
order. -/
def categoryTable : List (String × List String) :=
  [("electronics", ["phone", "laptop", "computer", "tablet", "tv", "camera"]),
   ("gaming", ["gaming", "console", "xbox", "playstation", "nintendo"]),
   ("audio", ["headphones", "earbuds", "speaker", "sound"]),
   ("wearables", ["watch", "fitness", "tracker"])]

/-- Embeds `extractCategory` (`src/functions/ai-search/index.ts` lines
178-195): the first category (in insertion order) one of whose keywords is
contained in the query, or `null`. -/
def extractCategory (query : String) : Option String :=
  (categoryTable.find? (fun e => e.2.any (fun k => strIncludes query k))).map
    Prod.fst

/-- JavaScript `query.toLowerCase()`, modelled as lowercasing every
character (the keyword tables are ASCII, for which this matches). -/
def toLowerStr (s : String) : String := String.mk (s.data.map Char.toLower)

/-- The search-intent record returned by `analyzeSearchIntent`: exactly the
fields productType, brand, priceRange, features, category. -/
structure SearchIntent : Type where
  productType : String
  brand : Option String
  priceRange : Option PriceRange
  features : List String
  category : Option String
deriving DecidableEq, Repr

/-- Embeds `analyzeSearchIntent` (`src/functions/ai-search/index.ts` lines
89-104): lowercase the query, then run the five extractors. -/
def analyzeSearchIntent (query : String) : SearchIntent :=
  let lowerQuery := toLowerStr query
  { productType := extractProductType lowerQuery
    brand := extractBrand lowerQuery
    priceRange := extractPriceRange lowerQuery
    features := extractFeatures lowerQuery
    category := extractCategory lowerQuery }

/-- Modelled from the spec: the Change Detector of section 4.2, missing
from src/ (the repository's `updateProductPrices` is a random demo stub
whose comments describe the real comparison).  With no prior quote the
classification is `new` and `oldPrice` is null; otherwise
`delta = newPrice - oldPrice`,
`deltaPercent = delta / oldPrice * 100` guarded to 0 when `oldPrice = 0`,
and the classification is `unchanged` exactly when `delta = 0`, else
`increase`/`decrease` by the sign of `delta`. -/
def detect (productId storeId : String) (newPrice : ℚ) (lastPrice : Option ℚ) :
    ChangeEvent :=
  match lastPrice with
  | none => ⟨productId, storeId, none, newPrice, 0, 0, .new⟩
  | some oldPrice =>
      let delta := newPrice - oldPrice
      let deltaPercent := if oldPrice = 0 then 0 else delta / oldPrice * 100
      let classification :=
        if delta = 0 then Classification.unchanged
        else if 0 < delta then Classification.increase
        else Classification.decrease
      ⟨productId, storeId, some oldPrice, newPrice, delta, deltaPercent,
       classification⟩

/-- The minimum price across a batch of quotes (0 for an empty batch, in
which case the matcher never consults it). -/
def minPrice : List PriceQuote → ℚ
| [] => 0
| q :: qs => (qs.map (fun c => c.price)).foldl min q.price

/-- The first quote in input order whose price equals the batch minimum;
`none` exactly for an empty batch. -/
def bestQuote (quotes : List PriceQuote) : Option PriceQuote :=
  quotes.find? (fun q => q.price = minPrice quotes)

/-- Modelled from the spec: the Alert Matcher of section 4.3 on a single
alert, missing from src/ (the repository's `checkPriceAlerts` is a demo
stub that never reads the price_alerts table).  An alert is considered
only if it is active, is on the given product, and has a positive target
price (section 7: a non-positive target is skipped, never crashing the
matcher).  If the batch is non-empty and its minimum price is at most the
target price, one NotificationIntent referencing the first store that
achieved the minimum is emitted and the alert is deactivated; otherwise
the alert is returned unchanged. -/
def matchOne (productId : String) (quotes : List PriceQuote)
    (a : PriceAlert) : Option NotificationIntent × PriceAlert :=
  if a.isActive = true ∧ a.productId = productId ∧ 0 < a.targetPrice then
    match bestQuote quotes with
    | none => (none, a)
    | some b =>
        if minPrice quotes ≤ a.targetPrice then
          (some ⟨a.id, a.userId, productId, b.storeId, minPrice quotes,
                 a.targetPrice, a.targetPrice - minPrice quotes⟩,
           { a with isActive := false })
        else (none, a)
  else (none, a)

/-- Modelled from the spec: the Alert Matcher of section 4.3 over a list
of alerts — the emitted intents in alert order, and the updated alert
list with matched alerts deactivated. -/
def matchAlerts (productId : String) (quotes : List PriceQuote)
    (alerts : List PriceAlert) : List NotificationIntent × List PriceAlert :=
  (alerts.filterMap (fun a => (matchOne productId quotes a).1),
   alerts.map (fun a => (matchOne productId quotes a).2))

/-- Summary returned by a completed refresh job, as in the spec's section
4.4 step 5 (change-event counts flattened into one field per
classification). -/
structure RefreshSummary : Type where
  productsRequested : ℕ
  productsSucceeded : ℕ
  productsFailed : ℕ
  quotesWritten : ℕ
  changesNew : ℕ
  changesIncrease : ℕ
  changesDecrease : ℕ
  changesUnchanged : ℕ
  notificationsSent : ℕ
deriving DecidableEq, Repr

/-- Modelled from the spec: the quotes one product collects in section 4.4
step 1 — every configured adapter is invoked, failed adapters contribute
nothing, and the successful adapters' quotes are concatenated. -/
def productQuotes (fetch : String → List (Except Unit (List PriceQuote)))
    (productId : String) : List PriceQuote :=
  (fetch productId).foldl (fun acc r =>
    match r with
    | .ok qs => acc ++ qs
    | .error _ => acc) []

/-- Modelled from the spec: a product succeeds in a refresh cycle exactly
when it collected at least one quote (section 4.4 step 1: a product with
zero quotes returned is marked Failed). -/
def productSucceeds (fetch : String → List (Except Unit (List PriceQuote)))
    (productId : String) : Bool :=
  !(productQuotes fetch productId).isEmpty

/-- Modelled from the spec: the Refresh Orchestrator of section 4.4,
missing from src/ (the repository's handler neither distinguishes
succeeded from failed products nor touches alerts).  For a batch of
product ids it collects each product's quotes, persists every quote,
classifies each quote against the last snapshot, threads the alert list
through the Alert Matcher product by product, and returns the summary
together with the written quotes, the collected intents and the updated
alerts. -/
def runRefresh (fetch : String → List (Except Unit (List PriceQuote)))
    (lastSnap : String → String → Option ℚ) (alerts : List PriceAlert)
    (ids : List String) :
    RefreshSummary × List PriceQuote × List NotificationIntent ×
      List PriceAlert :=
  let written := (ids.map (productQuotes fetch)).flatten
  let events := written.map (fun q =>
    detect q.productId q.storeId q.price (lastSnap q.productId q.storeId))
  let matched := ids.foldl (fun acc p =>
    let r := matchAlerts p (productQuotes fetch p) acc.2
    (acc.1 ++ r.1, r.2)) (([] : List NotificationIntent), alerts)
  ({ productsRequested := ids.length
     productsSucceeded := ids.countP (fun p => productSucceeds fetch p)
     productsFailed := ids.countP (fun p => !productSucceeds fetch p)
     quotesWritten := written.length
     changesNew := events.countP (fun e => e.classification = .new)
     changesIncrease := events.countP (fun e => e.classification = .increase)
     changesDecrease := events.countP (fun e => e.classification = .decrease)
     changesUnchanged := events.countP (fun e => e.classification = .unchanged)
     notificationsSent := matched.1.length },
   written, matched.1, matched.2)

/-- Computation rule for `detect` with a prior quote. -/
theorem detect_some_eq (pid sid : String) (np old : ℚ) :
    detect pid sid np (some old) =
      ⟨pid, sid, some old, np, np - old,
       (if old = 0 then 0 else (np - old) / old * 100),
       (if np - old = 0 then Classification.unchanged
        else if 0 < np - old then Classification.increase
        else Classification.decrease)⟩ := rfl

/-- Folding `min` over a list starting from `x` yields `x` or a list
element. -/
theorem foldlMin_mem : ∀ (xs : List ℚ) (x : ℚ),
    xs.foldl min x = x ∨ xs.foldl min x ∈ xs := by
  intro xs
  induction xs with
  | nil => intro x; exact Or.inl rfl
  | cons c cs ih =>
      intro x
      rcases ih (min x c) with h | h
      · rcases min_choice x c with hm | hm
        · exact Or.inl (by rw [List.foldl_cons, h, hm])
        · exact Or.inr (by rw [List.foldl_cons, h, hm]; exact List.mem_cons_self c cs)
      · exact Or.inr (List.mem_cons_of_mem c h)

/-- Folding `min` over a list is a lower bound of the start and of every
element. -/
theorem foldlMin_le : ∀ (xs : List ℚ) (x : ℚ),
    xs.foldl min x ≤ x ∧ ∀ y ∈ xs, xs.foldl min x ≤ y := by
  intro xs
  induction xs with
  | nil => intro x; exact ⟨le_refl x, by intro y hy; cases hy⟩
  | cons c cs ih =>
      intro x
      have h := ih (min x c)
      refine ⟨le_trans h.1 (min_le_left x c), ?_⟩
      intro y hy
      rcases List.mem_cons.mp hy with rfl | hy
      · exact le_trans h.1 (min_le_right x y)
      · exact h.2 y hy

/-- For a non-empty batch the minimum price is attained by some quote. -/
theorem minPrice_attained (quotes : List PriceQuote) (hne : quotes ≠ []) :
    ∃ q ∈ quotes, q.price = minPrice quotes := by
  match quotes with
  | [] => exact absurd rfl hne
  | q :: qs =>
      rcases foldlMin_mem (qs.map (fun c => c.price)) q.price with h | h
      · exact ⟨q, List.mem_cons_self q qs, h.symm⟩
      · rcases List.mem_map.mp h with ⟨c, hc, hcp⟩
        exact ⟨c, List.mem_cons_of_mem q hc, hcp⟩

/-- The minimum price is a lower bound of every quote's price. -/
theorem minPrice_le (quotes : List PriceQuote) :
    ∀ q ∈ quotes, minPrice quotes ≤ q.price := by
  match quotes with
  | [] => intro q hq; cases hq
  | c :: cs =>
      intro q hq
      have h := foldlMin_le (cs.map (fun c => c.price)) c.price
      rcases List.mem_cons.mp hq with rfl | hq
      · exact h.1
      · exact h.2 q.price (List.mem_map.mpr ⟨q, hq, rfl⟩)

/-- A successful `find?` splits its list at the found element, with the
predicate false on everything before it. -/
theorem findSplit {α : Type} (p : α → Bool) :
    ∀ (l : List α) (x : α), l.find? p = some x →
      ∃ pre post, l = pre ++ x :: post ∧ ∀ a ∈ pre, p a = false := by
  intro l
  induction l with
  | nil => intro x h; cases h
  | cons c cs ih =>
      intro x h
      cases hp : p c with
      | true =>
          rw [List.find?_cons_of_pos cs hp] at h
          cases h
          exact ⟨[], cs, rfl, by intro a ha; cases ha⟩
      | false =>
          rw [List.find?_cons_of_neg cs (by simp [hp])] at h
          rcases ih x h with ⟨pre, post, hl, hpre⟩
          refine ⟨c :: pre, post, by rw [hl]; rfl, ?_⟩
          intro a ha
          rcases List.mem_cons.mp ha with rfl | ha
          · exact hp
          · exact hpre a ha

/-- For a non-empty batch `bestQuote` returns a quote achieving the
minimum price. -/
theorem bestQuote_some (quotes : List PriceQuote) (hne : quotes ≠ []) :
    ∃ b, bestQuote quotes = some b ∧ b.price = minPrice quotes := by
  rcases minPrice_attained quotes hne with ⟨q, hq, hqp⟩
  have hsome : (quotes.find? (fun q => q.price = minPrice quotes)).isSome := by
    rw [List.find?_isSome]
    exact ⟨q, hq, by simp [hqp]⟩
  rcases Option.isSome_iff_exists.mp hsome with ⟨b, hb⟩
  refine ⟨b, hb, ?_⟩
  have := List.find?_some hb
  exact of_decide_eq_true this

/-- An inactive alert never produces an intent. -/
theorem matchOne_not_active (pid : String) (quotes : List PriceQuote)
    (a : PriceAlert) (h : a.isActive = false) :
    (matchOne pid quotes a).1 = none ∧ (matchOne pid quotes a).2 = a := by
  unfold matchOne
  rw [if_neg]
  · exact ⟨rfl, rfl⟩
  · rintro ⟨h1, -, -⟩
    rw [h] at h1
    cases h1

/-- If an intent was emitted for an alert, the returned alert is the
deactivated copy. -/
theorem matchOne_fired (pid : String) (quotes : List PriceQuote)
    (a : PriceAlert) (i : NotificationIntent)
    (h : (matchOne pid quotes a).1 = some i) :
    (matchOne pid quotes a).2 = { a with isActive := false } := by
  unfold matchOne at h ⊢
  by_cases hg : a.isActive = true ∧ a.productId = pid ∧ 0 < a.targetPrice
  · rw [if_pos hg] at h ⊢
    cases hb : bestQuote quotes with
    | none => rw [hb] at h; simp at h
    | some b =>
        rw [hb] at h
        dsimp only at h ⊢
        by_cases hle : minPrice quotes ≤ a.targetPrice
        · rw [if_pos hle]
        · rw [if_neg hle] at h; cases h
  · rw [if_neg hg] at h; cases h

/-- Folding the per-store try/catch body over a list of stores appends, to
the accumulator, the concatenation of the successful stores' results. -/
theorem collectStore_acc (fetch : String → Except Unit (List PriceResult)) :
    ∀ (stores : List String) (acc : List PriceResult),
      stores.foldl (fun acc s =>
        match fetch s with
        | .ok rs => acc ++ rs
        | .error _ => acc) acc
      = acc ++ (stores.map (fun s =>
          match fetch s with
          | .ok rs => rs
          | .error _ => [])).flatten := by
  intro stores
  induction stores with
  | nil => intro acc; simp
  | cons s ss ih =>
      intro acc
      rw [List.foldl_cons, List.map_cons, List.flatten_cons, ih]
      cases h : fetch s with
      | ok rs => simp [List.append_assoc]
      | error e => simp

/-- Folding the per-product try/catch body over a list of products appends,
to the accumulator, the successful products' updates and their alert
notifications. -/
theorem runProducts_acc (step : String → Except Unit (List PriceUpdate)) :
    ∀ (ids : List String) (acc : List PriceUpdate × List MockNotification),
      ids.foldl (fun acc pid =>
        match step pid with
        | .ok pu => (acc.1 ++ pu, acc.2 ++ checkPriceAlerts pu)
        | .error _ => acc) acc
      = (acc.1 ++ (ids.map (fun p =>
           match step p with
           | .ok pu => pu
           | .error _ => [])).flatten,
         acc.2 ++ (ids.map (fun p =>
           match step p with
           | .ok pu => checkPriceAlerts pu
           | .error _ => [])).flatten) := by
  intro ids
  induction ids with
  | nil => intro acc; simp
  | cons p ps ih =>
      intro acc
      rw [List.foldl_cons, List.map_cons, List.map_cons, List.flatten_cons,
        List.flatten_cons, ih]
      cases h : step p with
      | ok pu => simp [List.append_assoc]
      | error e => simp

/-- C4.  For every quote fed to the Change Detector with no prior snapshot
for its (product, store) pair, the resulting ChangeEvent has
classification `new` and oldPrice equal to null. -/
theorem detect_no_prior_new (pid sid : String) (np : ℚ) :
    (detect pid sid np none).classification = Classification.new
    ∧ (detect pid sid np none).oldPrice = none :=
  ⟨rfl, rfl⟩

/-- C5.  With a prior quote the Change Detector computes
`delta = newPrice - oldPrice` and `deltaPercent = delta / oldPrice * 100`
with the division guarded to 0 when the prior price is 0; the
classification is `unchanged` exactly when `delta = 0` and otherwise
follows the sign of `delta` (also when the prior price is 0). -/
theorem detect_change_properties (pid sid : String) (np old : ℚ) :
    (detect pid sid np (some old)).delta = np - old
    ∧ (old = 0 → (detect pid sid np (some old)).deltaPercent = 0)
    ∧ (old ≠ 0 → (detect pid sid np (some old)).deltaPercent
        = (np - old) / old * 100)
    ∧ ((detect pid sid np (some old)).classification
        = Classification.unchanged ↔ np - old = 0)
    ∧ (0 < np - old → (detect pid sid np (some old)).classification
        = Classification.increase)
    ∧ (np - old < 0 → (detect pid sid np (some old)).classification
        = Classification.decrease) := by
  rw [detect_some_eq]
  refine ⟨rfl, ?_, ?_, ?_, ?_, ?_⟩
  · intro h; dsimp only; rw [if_pos h]
  · intro h; dsimp only; rw [if_neg h]
  · dsimp only
    constructor
    · intro hcl
      by_contra h
      rw [if_neg h] at hcl
      by_cases h2 : 0 < np - old
      · rw [if_pos h2] at hcl; exact Classification.noConfusion hcl
      · rw [if_neg h2] at hcl; exact Classification.noConfusion hcl
    · intro h; rw [if_pos h]
  · intro h2
    dsimp only
    rw [if_neg (ne_of_gt h2), if_pos h2]
  · intro h2
    dsimp only
    rw [if_neg (ne_of_lt h2), if_neg (not_lt.mpr (le_of_lt h2))]

/-- Witness for C5 at the concrete prior price 4 and new price 5. -/
theorem detect_change_properties_witness :
    (detect "p" "s" 5 (some 4)).deltaPercent = (5 - 4) / 4 * 100
    ∧ (detect "p" "s" 5 (some 4)).classification = Classification.increase := by
  have h := detect_change_properties "p" "s" 5 4
  exact ⟨h.2.2.1 (by norm_num), h.2.2.2.2.1 (by norm_num)⟩

/-- C6 counterexample.  An empty product id list — malformed per the claim
— is accepted by the `update-prices` handler, which returns the success
summary rather than a fatal error. -/
theorem empty_product_ids_accepted :
    (updatePricesHandler (fun _ => Except.ok [])
        (ProductIdsField.arr [])).isFatal = false
    ∧ updatePricesHandler (fun _ => Except.ok []) (ProductIdsField.arr [])
        = UpdateResponse.success 0 0 0 [] :=
  ⟨rfl, rfl⟩

/-- C6 amended.  A missing or non-array `productIds` field yields a fatal
400 error; every array — including the empty array — is accepted and
yields a success summary. -/
theorem update_prices_validation :
    ∀ step : String → Except Unit (List PriceUpdate),
      (updatePricesHandler step ProductIdsField.missing).isFatal = true
      ∧ (∀ t, (updatePricesHandler step (ProductIdsField.nonArray t)).isFatal
          = true)
      ∧ (∀ ids, (updatePricesHandler step (ProductIdsField.arr ids)).isFatal
          = false) :=
  fun _ => ⟨rfl, fun _ => rfl, fun _ => rfl⟩

/-- C7.  A failing store fetch is contained locally: the batch result is
exactly the concatenation of the successful stores' quotes, so a failed
store contributes zero quotes, the loop never raises, and the other
stores' quotes are returned; likewise per product in the `update-prices`
loop. -/
theorem store_failure_contained :
    (∀ (fetch : String → Except Unit (List PriceResult))
        (stores : List String),
      collectStoreResults fetch stores
        = (stores.map (fun s =>
            match fetch s with
            | .ok rs => rs
            | .error _ => ([] : List PriceResult))).flatten)
    ∧ (∀ (step : String → Except Unit (List PriceUpdate))
        (ids : List String),
      (runProducts step ids).1
        = (ids.map (fun p =>
            match step p with
            | .ok pu => pu
            | .error _ => ([] : List PriceUpdate))).flatten) := by
  constructor
  · intro fetch stores
    unfold collectStoreResults
    rw [collectStore_acc]
    simp
  · intro step ids
    unfold runProducts
    rw [runProducts_acc]
    simp

/-- Embeds the validation in `createPriceAlert` (`src/unnamed/part_001`
lines 182-191): the parsed target price is accepted only when it is a
number greater than 0 (`isNaN(targetPrice) || targetPrice <= 0` is
rejected; NaN cannot arise in the rational model). -/
def createPriceAlertAccepts (targetPrice : ℚ) : Bool :=
  decide (0 < targetPrice)

/-- C8.  An alert whose target price is non-positive is skipped by the
Alert Matcher: it produces no NotificationIntent, is returned unchanged,
and — the matcher being a total function — never crashes it; the UI's
alert-creation validation rejects such a target price in the first
place. -/
theorem non_positive_target_skipped (pid : String) (quotes : List PriceQuote)
    (a : PriceAlert) (h : a.targetPrice ≤ 0) :
    (matchOne pid quotes a).1 = none ∧ (matchOne pid quotes a).2 = a
    ∧ createPriceAlertAccepts a.targetPrice = false := by
  refine ⟨?_, ?_, decide_eq_false (not_lt.mpr h)⟩ <;>
  · unfold matchOne
    rw [if_neg (by rintro ⟨-, -, h3⟩; exact absurd h3 (not_lt.mpr h))]

/-- Witness for C8: an active alert with target price 0 on a product whose
only quote costs 50 produces no intent, stays unchanged, and would have
been rejected at creation. -/
theorem non_positive_target_skipped_witness :
    (matchOne "p" [⟨"p", "s1", 50, Availability.in_stock, "u", 0⟩]
        (⟨"a1", "u1", "p", 0, true, 0⟩ : PriceAlert)).1 = none
    ∧ (matchOne "p" [⟨"p", "s1", 50, Availability.in_stock, "u", 0⟩]
        (⟨"a1", "u1", "p", 0, true, 0⟩ : PriceAlert)).2
        = (⟨"a1", "u1", "p", 0, true, 0⟩ : PriceAlert)
    ∧ createPriceAlertAccepts
        (⟨"a1", "u1", "p", 0, true, 0⟩ : PriceAlert).targetPrice = false :=
  non_positive_target_skipped "p" _ _ (le_refl 0)

/-- Counting a predicate and its negation over a list covers the whole
list. -/
theorem countP_add_not {α : Type} (p : α → Bool) :
    ∀ l : List α, l.countP p + l.countP (fun a => !p a) = l.length := by
  intro l
  induction l with
  | nil => rfl
  | cons a l ih =>
      rw [List.countP_cons, List.countP_cons, List.length_cons]
      cases h : p a
      · simp [h]; omega
      · simp [h]; omega

/-- C9.  The search-intent analysis returns a record with exactly the
fields productType, brand, priceRange, features and category, and its
productType is a known product-type keyword contained in the lowercased
query, or "general" when none of the known keywords occurs. -/
theorem analyzeSearchIntent_shape (q : String) :
    analyzeSearchIntent q =
      ⟨extractProductType (toLowerStr q), extractBrand (toLowerStr q),
       extractPriceRange (toLowerStr q), extractFeatures (toLowerStr q),
       extractCategory (toLowerStr q)⟩
    ∧ (((analyzeSearchIntent q).productType ∈ productTypes
        ∧ strIncludes (toLowerStr q) (analyzeSearchIntent q).productType = true)
      ∨ ((analyzeSearchIntent q).productType = "general"
        ∧ ∀ t ∈ productTypes, strIncludes (toLowerStr q) t = false)) := by
  refine ⟨rfl, ?_⟩
  have hpt : (analyzeSearchIntent q).productType
      = (productTypes.find? (fun t => strIncludes (toLowerStr q) t)).getD "general" :=
    rfl
  rw [hpt]
  cases h : productTypes.find? (fun t => strIncludes (toLowerStr q) t) with
  | some t =>
      left
      rw [Option.getD_some]
      exact ⟨List.mem_of_find?_eq_some h, List.find?_some h⟩
  | none =>
      right
      refine ⟨rfl, ?_⟩
      intro t ht
      have hn := List.find?_eq_none.mp h t ht
      cases hb : strIncludes (toLowerStr q) t
      · rfl
      · exact absurd hb hn

/-- Witness for C9 at a concrete query containing a known keyword. -/
theorem analyzeSearchIntent_shape_witness :
    (analyzeSearchIntent "cheap iphone deals").productType ∈ productTypes
    ∧ strIncludes (toLowerStr "cheap iphone deals")
        (analyzeSearchIntent "cheap iphone deals").productType = true := by
  rcases (analyzeSearchIntent_shape "cheap iphone deals").2 with h | h
  · exact h
  · have he : (analyzeSearchIntent "cheap iphone deals").productType
        = "phone" := by decide
    rw [he] at h
    exact absurd h.1 (by decide)

/-- C10.  The lowest-price helper of the pages returns null exactly on an
empty price list, and otherwise the minimum price occurring in the list:
the returned value is among the prices and is a lower bound of them. -/
theorem getLowestPrice_spec (prices : List PriceData) :
    (prices = [] → getLowestPrice prices = none)
    ∧ (prices ≠ [] → ∃ m, getLowestPrice prices = some m)
    ∧ (∀ m, getLowestPrice prices = some m →
        m ∈ prices.map (fun p => p.price) ∧ ∀ p ∈ prices, m ≤ p.price) := by
  cases prices with
  | nil =>
      refine ⟨fun _ => rfl, fun h => absurd rfl h, ?_⟩
      intro m hm
      simp [getLowestPrice] at hm
  | cons q qs =>
      have heq : getLowestPrice (q :: qs)
          = some ((qs.map (fun p => p.price)).foldl min q.price) := rfl
      refine ⟨fun h => (List.cons_ne_nil q qs h).elim, fun _ => ⟨_, heq⟩, ?_⟩
      intro m hm
      rw [heq] at hm
      cases Option.some.inj hm
      constructor
      · rw [List.map_cons]
        rcases foldlMin_mem (qs.map fun p => p.price) q.price with h | h
        · rw [h]; exact List.mem_cons_self _ _
        · exact List.mem_cons_of_mem _ h
      · intro p hp
        have hle := foldlMin_le (qs.map fun p => p.price) q.price
        rcases List.mem_cons.mp hp with rfl | hp
        · exact hle.1
        · exact hle.2 p.price (List.mem_map.mpr ⟨p, hp, rfl⟩)

/-- Witness for C10 at a concrete two-row price list with minimum 3. -/
theorem getLowestPrice_spec_witness :
    (∃ m, getLowestPrice
      [⟨"pr", "s1", 5, "in_stock", "u", "n", "l"⟩,
       ⟨"pr", "s2", 3, "in_stock", "u", "n", "l"⟩] = some m)
    ∧ (3 : ℚ) ∈ ([⟨"pr", "s1", 5, "in_stock", "u", "n", "l"⟩,
       ⟨"pr", "s2", 3, "in_stock", "u", "n", "l"⟩] : List PriceData).map
         (fun p => p.price) := by
  have h := getLowestPrice_spec
    [⟨"pr", "s1", 5, "in_stock", "u", "n", "l"⟩,
     ⟨"pr", "s2", 3, "in_stock", "u", "n", "l"⟩]
  exact ⟨h.2.1 (by simp), (h.2.2 3 (by decide)).1⟩

/-- C1 counterexample.  An active alert on the product with target price 0
and a single free quote (price 0): the minimum price is at most the target
price, yet the matcher — which skips non-positive targets per the spec's
error taxonomy — emits no NotificationIntent, so the claimed equivalence
fails for alerts with non-positive target price. -/
theorem zero_target_alert_counterexample :
    minPrice [⟨"p", "s1", 0, Availability.in_stock, "u", 0⟩]
      ≤ (⟨"a1", "u1", "p", 0, true, 0⟩ : PriceAlert).targetPrice
    ∧ (matchOne "p" [⟨"p", "s1", 0, Availability.in_stock, "u", 0⟩]
        (⟨"a1", "u1", "p", 0, true, 0⟩ : PriceAlert)).1 = none := by
  exact ⟨by decide, by decide⟩

/-- C1 amended.  For every non-empty quote batch and every active alert on
the product with positive target price, the Alert Matcher emits an intent
exactly when the minimum price across the quotes is at most the target
price, and the intent carries that minimum price and references the first
store in input order that achieved it. -/
theorem alert_matcher_min_target (pid : String) (quotes : List PriceQuote)
    (a : PriceAlert) (hne : quotes ≠ []) (hact : a.isActive = true)
    (hpid : a.productId = pid) (hpos : 0 < a.targetPrice) :
    ((matchOne pid quotes a).1.isSome = true
        ↔ minPrice quotes ≤ a.targetPrice)
    ∧ (∀ i, (matchOne pid quotes a).1 = some i →
        i.triggeringPrice = minPrice quotes
        ∧ i.targetPrice = a.targetPrice
        ∧ ∃ pre b post, quotes = pre ++ b :: post
            ∧ i.storeId = b.storeId
            ∧ b.price = minPrice quotes
            ∧ ∀ p ∈ pre, minPrice quotes < p.price) := by
  rcases bestQuote_some quotes hne with ⟨b, hb, hbp⟩
  unfold matchOne
  rw [if_pos ⟨hact, hpid, hpos⟩, hb]
  dsimp only
  by_cases hle : minPrice quotes ≤ a.targetPrice
  · rw [if_pos hle]
    constructor
    · exact ⟨fun _ => hle, fun _ => rfl⟩
    · intro i hi
      cases Option.some.inj hi
      refine ⟨rfl, rfl, ?_⟩
      rcases findSplit _ quotes b hb with ⟨pre, post, hl, hpre⟩
      refine ⟨pre, b, post, hl, rfl, hbp, ?_⟩
      intro p hp
      have hmem : p ∈ quotes := by
        rw [hl]; exact List.mem_append_left _ hp
      have h1 := minPrice_le quotes p hmem
      have h2 := hpre p hp
      have h3 : p.price ≠ minPrice quotes := by
        intro hx
        rw [hx] at h2
        simp at h2
      exact lt_of_le_of_ne h1 (Ne.symm h3)
  · rw [if_neg hle]
    constructor
    · constructor
      · intro h; exact absurd h (by simp)
      · intro h; exact absurd h hle
    · intro i hi; cases hi

/-- Witness for C1 amended at the spec's own example: target price 100 and
quotes storeA at 120 then storeB at 95 — an intent is emitted. -/
theorem alert_matcher_min_target_witness :
    (matchOne "p"
      [⟨"p", "sA", 120, Availability.in_stock, "u", 0⟩,
       ⟨"p", "sB", 95, Availability.in_stock, "u", 0⟩]
      (⟨"a1", "u1", "p", 100, true, 0⟩ : PriceAlert)).1.isSome = true := by
  have h := alert_matcher_min_target "p"
    [⟨"p", "sA", 120, Availability.in_stock, "u", 0⟩,
     ⟨"p", "sB", 95, Availability.in_stock, "u", 0⟩]
    (⟨"a1", "u1", "p", 100, true, 0⟩ : PriceAlert)
    (by simp) rfl rfl (by decide)
  exact h.1.mpr (by decide)

/-- C2.  Once the Alert Matcher emits a NotificationIntent for an alert,
the alert it returns is deactivated, and feeding that deactivated alert to
the matcher again — with any batch of quotes, qualifying or not —
produces no further intent. -/
theorem alert_fires_at_most_once (pid : String) (quotes : List PriceQuote)
    (a : PriceAlert) (i : NotificationIntent)
    (h : (matchOne pid quotes a).1 = some i) :
    (matchOne pid quotes a).2.isActive = false
    ∧ ∀ quotes2, (matchOne pid quotes2 (matchOne pid quotes a).2).1 = none := by
  have hf := matchOne_fired pid quotes a i h
  constructor
  · rw [hf]
  · intro quotes2
    rw [hf]
    exact (matchOne_not_active pid quotes2 _ rfl).1

/-- Witness for C2: the alert with target 100 fires on a 95 quote, comes
back deactivated, and a second run on a still-qualifying 50 quote emits
nothing. -/
theorem alert_fires_at_most_once_witness :
    (matchOne "p" [⟨"p", "s1", 95, Availability.in_stock, "u", 0⟩]
      (⟨"a1", "u1", "p", 100, true, 0⟩ : PriceAlert)).2.isActive = false
    ∧ (matchOne "p" [⟨"p", "s2", 50, Availability.in_stock, "u", 0⟩]
        (matchOne "p" [⟨"p", "s1", 95, Availability.in_stock, "u", 0⟩]
          (⟨"a1", "u1", "p", 100, true, 0⟩ : PriceAlert)).2).1 = none := by
  obtain ⟨i, hi⟩ : ∃ i,
      (matchOne "p" [⟨"p", "s1", 95, Availability.in_stock, "u", 0⟩]
        (⟨"a1", "u1", "p", 100, true, 0⟩ : PriceAlert)).1 = some i :=
    ⟨_, rfl⟩
  have h := alert_fires_at_most_once "p"
    [⟨"p", "s1", 95, Availability.in_stock, "u", 0⟩]
    (⟨"a1", "u1", "p", 100, true, 0⟩ : PriceAlert) i hi
  exact ⟨h.1, h.2 [⟨"p", "s2", 50, Availability.in_stock, "u", 0⟩]⟩

/-- Adapter responses for the spec's partial-failure example: three
products, of which p2's adapters all fail while p1 and p3 each return one
quote. -/
def exampleFetch : String → List (Except Unit (List PriceQuote)) :=
  fun p =>
    if p = "p1" then
      [Except.ok [⟨"p1", "s1", 120, Availability.in_stock, "u", 0⟩]]
    else if p = "p2" then [Except.error (), Except.error ()]
    else [Except.ok [⟨"p3", "s2", 80, Availability.in_stock, "u", 0⟩]]

/-- C3.  The completed refresh job's summary reports productsRequested as
the batch size, productsSucceeded as exactly the number of products whose
refresh collected at least one quote, and productsFailed as exactly the
rest; on the spec's 3-product example in which product 2's adapters all
fail, the summary reports 2 succeeded and 1 failed and the other products'
snapshots are written regardless. -/
theorem refresh_summary_counts :
    (∀ (fetch : String → List (Except Unit (List PriceQuote)))
        (lastSnap : String → String → Option ℚ)
        (alerts : List PriceAlert) (ids : List String),
      (runRefresh fetch lastSnap alerts ids).1.productsRequested = ids.length
      ∧ (runRefresh fetch lastSnap alerts ids).1.productsSucceeded
          = (ids.filter (fun p => !(productQuotes fetch p).isEmpty)).length
      ∧ (runRefresh fetch lastSnap alerts ids).1.productsSucceeded
          + (runRefresh fetch lastSnap alerts ids).1.productsFailed
          = ids.length)
    ∧ ((runRefresh exampleFetch (fun _ _ => none) []
          ["p1", "p2", "p3"]).1.productsSucceeded = 2
       ∧ (runRefresh exampleFetch (fun _ _ => none) []
          ["p1", "p2", "p3"]).1.productsFailed = 1
       ∧ (runRefresh exampleFetch (fun _ _ => none) []
          ["p1", "p2", "p3"]).1.productsRequested = 3
       ∧ (runRefresh exampleFetch (fun _ _ => none) []
          ["p1", "p2", "p3"]).2.1
           = [⟨"p1", "s1", 120, Availability.in_stock, "u", 0⟩,
              ⟨"p3", "s2", 80, Availability.in_stock, "u", 0⟩]) := by
  constructor
  · intro fetch lastSnap alerts ids
    refine ⟨rfl, ?_, ?_⟩
    · show ids.countP (fun p => productSucceeds fetch p)
        = (ids.filter (fun p => !(productQuotes fetch p).isEmpty)).length
      rw [List.countP_eq_length_filter]
      rfl
    · exact countP_add_not (fun p => productSucceeds fetch p) ids
  · refine ⟨by decide, by decide, by decide, by decide⟩
